import Mathlib

/-!
Verification of the Muffasa interpreter (Muffasa.py, mathforlanguage.py).

The development shallowly embeds the three pipeline stages of the source —
`Lexer.tokenize`, the recursive-descent `Parser`, and the tree-walking
`Interpreter` together with the `mathforlenguage` helper and the
`StringBeans` mutable string wrapper — and proves properties of the
embedded program.  Loops and recursion are made total with an explicit
fuel argument; running out of fuel is reported as the distinguished
error `Err.fuel`, so genuine non-termination of the source shows up as
fuel exhaustion at every fuel bound actually used.  Machine-level
floating point is out of scope: float values are carried as rationals
and the few float-producing operations no claim touches
(`math.sqrt`, float exponents) report `Err.notModelled`.
-/

deriving instance DecidableEq for Except

namespace Muffasa

/-- Failure conditions of the source program, tagged by the Python
exception class that raises them. -/
inductive Err
  | runtime (msg : String)
  | nameErr (msg : String)
  | typeErr (msg : String)
  | valueErr (msg : String)
  | keyErr (msg : String)
  | attrErr (msg : String)
  | indexErr (msg : String)
  | zeroDivErr (msg : String)
  | fuel
  | notModelled (msg : String)
deriving DecidableEq, Repr

/-- A lexer token: the `(token_type, token_value)` string pair appended
by `Lexer.tokenize`. -/
abbrev Token := String × String

/-- Python `self.code[start:stop]` on the source character list. -/
def slice (code : List Char) (start stop : ℕ) : String :=
  String.mk ((code.drop start).take (stop - start))

/-- The keyword classification at the end of the identifier branch of
`Lexer.tokenize`: the fully collected identifier text is checked against
the keyword, class and builtin-function sets. -/
def keywordToken (value : String) : Token :=
  if value ∈ ["squareRoot", "min", "max"] then ("FUNC", value)
  else if value ∈ ["True", "False"] then ("BOOL", value)
  else if value = "if" then ("IF", value)
  else if value = "else" then ("ELSE", value)
  else if value ∈ ["while", "for"] then ("LOOP", value)
  else if value = "break" then ("Terminate", value)
  else if value = "continue" then ("Continue", value)
  else if value ∈ ["Shmuple", "StringBeans", "Arrays"] then ("Class", value)
  else ("ID", value)

/-- The inner scanning loops of `Lexer.tokenize`
(`while (char := self.get_next_char()) is not None and p(char)`).
Returns the position at which the loop leaves `self.position`; the
caller then subtracts one, exactly as the source does — including when
the loop exits at end of input, where `get_next_char` has not advanced
the position, so the caller steps backwards past consumed input.  The
loop advances by one character per step, so `code.length + 1` fuel always
suffices and the fuel-exhausted branch is unreachable at the call sites
below. -/
def scanWhile (fuel : ℕ) (code : List Char) (p : Char → Bool) (pos : ℕ) : ℕ :=
  match fuel with
  | 0 => pos
  | f + 1 =>
    match code[pos]? with
    | none => pos
    | some c => if p c then scanWhile f code p (pos + 1) else pos + 1

/-- The string-literal loop of `Lexer.tokenize`: consume characters until
a closing quote has been consumed, raising on end of input.  Returns the
position just after the closing quote. -/
def scanStringLit (fuel : ℕ) (code : List Char) (pos : ℕ) : Except Err ℕ :=
  match fuel with
  | 0 => throw Err.fuel
  | f + 1 =>
    match code[pos]? with
    | none => throw (Err.runtime "Unterminated string literal")
    | some c => if c = '"' then pure (pos + 1) else scanStringLit f code (pos + 1)

/-- The single-character operator/symbol set tested by
`char in '+-*/=<>!&|(){}^;,~'`. -/
def opChars : List Char :=
  ['+', '-', '*', '/', '=', '<', '>', '!', '&', '|', '(', ')', '{', '}', '^', ';', ',', '~']

/-- One character rendered for an error message. -/
def charMsg (c : Char) (pos : ℕ) : String :=
  "Unexpected character " ++ String.mk [c] ++ " in char number: " ++ toString pos

/-- Main loop of `Lexer.tokenize`.  `pos` is `self.position`; each branch
reproduces the source's position arithmetic, including the backwards
steps after an inner scan exits at end of input (which make the lexer
re-read input and diverge on programs ending inside a number or
identifier). -/
def tokenizeLoop (fuel : ℕ) (code : List Char) (pos : ℕ) (acc : List Token) :
    Except Err (List Token) :=
  match fuel with
  | 0 => throw Err.fuel
  | f + 1 =>
    match code[pos]? with
    | none => pure acc.reverse
    | some c =>
      let pos := pos + 1
      if c.isWhitespace then
        tokenizeLoop f code pos acc
      else if c.isAlpha then
        let start := pos - 1
        let stop := scanWhile (code.length + 1) code
          (fun ch => ch.isAlphanum || ch = '_') pos - 1
        tokenizeLoop f code stop (keywordToken (slice code start stop) :: acc)
      else if c.isDigit ||
          (c = '-' && (match code[pos]? with
                       | some d => d.isDigit
                       | none => false)) then
        let start := pos - 1
        let stop := scanWhile (code.length + 1) code
          (fun ch => ch.isDigit || ch = '.') pos - 1
        tokenizeLoop f code stop (("NUMBER", slice code start stop) :: acc)
      else if c = '"' then
        match scanStringLit (code.length + 2) code pos with
        | Except.error e => throw e
        | Except.ok stop =>
          tokenizeLoop f code stop (("CHAR", slice code pos stop) :: acc)
      else if c ∈ opChars then
        if c = '^' then tokenizeLoop f code pos (("OP", "^") :: acc)
        else if c = '=' then
          match code[pos]? with
          | some d =>
            if d = '=' then tokenizeLoop f code (pos + 1) (("OP", "==") :: acc)
            else tokenizeLoop f code pos (("ASSIGN", "=") :: acc)
          | none => tokenizeLoop f code (pos - 1) (("ASSIGN", "=") :: acc)
        else if c = '!' then
          match code[pos]? with
          | some d =>
            if d = '=' then tokenizeLoop f code (pos + 1) (("OP", "!=") :: acc)
            else throw (Err.runtime (charMsg c (pos + 1)))
          | none => throw (Err.runtime (charMsg c pos))
        else if c = '&' then
          match code[pos]? with
          | some d =>
            if d = '&' then tokenizeLoop f code (pos + 1) (("OP", "&&") :: acc)
            else throw (Err.runtime (charMsg c (pos + 1)))
          | none => throw (Err.runtime (charMsg c pos))
        else if c = '|' then
          match code[pos]? with
          | some d =>
            if d = '|' then tokenizeLoop f code (pos + 1) (("OP", "||") :: acc)
            else throw (Err.runtime (charMsg c (pos + 1)))
          | none => throw (Err.runtime (charMsg c pos))
        else if c ∈ ['+', '-', '*', '/'] then tokenizeLoop f code pos (("OP", String.mk [c]) :: acc)
        else if c ∈ ['<', '>'] then tokenizeLoop f code pos (("OP", String.mk [c]) :: acc)
        else if c ∈ ['(', ')', '{', '}'] then tokenizeLoop f code pos (("OP", String.mk [c]) :: acc)
        else if c = ',' then tokenizeLoop f code pos (("COMMA", ",") :: acc)
        else if c = '~' then tokenizeLoop f code pos (("END", "~") :: acc)
        else if c = ';' then tokenizeLoop f code pos (("SEMICOLON", ";") :: acc)
        else throw (Err.runtime (charMsg c pos))
      else if c = '.' then
        tokenizeLoop f code pos (("DOT", ".") :: acc)
      else throw (Err.runtime (charMsg c pos))

/-- `Lexer.tokenize` with a fuel bound generous enough for every
terminating run (a terminating run performs at most one main-loop step
per input position plus the number of backward steps, each of which is
paired with a consumed token). -/
def tokenize (source : String) : Except Err (List Token) :=
  tokenizeLoop (4 * source.length + 8) source.data 0 []

/-! ### Parser

The AST is the tuple tree built by `Parser.parse`; each constructor
records one tuple shape (first tuple element = constructor tag). -/

/-- AST nodes produced by the parser. -/
inductive Ast
  | assign (name : String) (expr : Ast)
  | ifOnly (cond : Ast) (ifBody : List Ast)
  | ifElse (cond : Ast) (ifBody elseBody : List Ast)
  | whileLoop (cond : Ast) (body : List Ast)
  | forLoop (init : Ast) (cond : Ast) (incr : Ast) (body : List Ast)
  | brk
  | cont
  | comment (text : String)
  | call (func : String) (args : List Ast)
  | methodCall (obj meth : String) (args : List Ast)
  | classInst (cls : String) (args : List Ast)
  | ident (name : String)
  | number (text : String)
  | boolLit (text : String)
  | charLit (text : String)
  | binop (op : String) (left right : Ast)
deriving Repr

/-- `Parser.consume`: advance past a token of the expected type and
return its text. -/
def consume (toks : List Token) (pos : ℕ) (expected : String) :
    Except Err (String × ℕ) :=
  match toks[pos]? with
  | some t =>
    if t.1 = expected then pure (t.2, pos + 1)
    else throw (Err.runtime ("Expected " ++ expected ++ " but got token in position number " ++ toString pos))
  | none => throw (Err.runtime ("Expected " ++ expected ++ " but got None in position number " ++ toString pos))

/-- `self.current_token()[0]` at the call sites that do not guard against
running off the token list: subscripting Python `None` raises a
TypeError. -/
def tokType (t : Option Token) : Except Err String :=
  match t with
  | some tk => pure tk.1
  | none => throw (Err.typeErr "'NoneType' object is not subscriptable")

/-- The statement-terminator check repeated in `parse_statement`: the
current token must be `END` or `SEMICOLON` and is consumed. -/
def consumeTerminator (toks : List Token) (pos : ℕ) : Except Err ℕ :=
  match toks[pos]? with
  | some tk =>
    if tk.1 = "END" ∨ tk.1 = "SEMICOLON" then pure (pos + 1)
    else throw (Err.runtime "Expected terminator at the end of statement")
  | none => throw (Err.runtime "Expected terminator at the end of statement")

/-- The optional terminator after `break`/`continue`. -/
def maybeTerminator (toks : List Token) (pos : ℕ) : ℕ :=
  match toks[pos]? with
  | some tk => if tk.1 = "END" ∨ tk.1 = "SEMICOLON" then pos + 1 else pos
  | none => pos

/-- The first binary-operator layer of `parse_expression`: additive,
comparison, equality and logical operators all live in this one set. -/
def exprOps : List String := ["+", "-", "<", ">", "==", "!=", "&&", "||"]

/-- The second binary-operator layer of `parse_term`. -/
def termOps : List String := ["*", "/", "^"]

mutual

/-- `Parser.parse`: append `parse_statement` results while the cursor has
not reached the end of the token list. -/
def parseProgram (fuel : ℕ) (toks : List Token) (pos : ℕ) (acc : List Ast) :
    Except Err (List Ast) :=
  match fuel with
  | 0 => throw Err.fuel
  | f + 1 =>
    if pos < toks.length then do
      let (stmt, pos') ← parseStatement f toks pos
      parseProgram f toks pos' (stmt :: acc)
    else pure acc.reverse
termination_by structural fuel

/-- `Parser.parse_statement`. -/
def parseStatement (fuel : ℕ) (toks : List Token) (pos : ℕ) :
    Except Err (Ast × ℕ) :=
  match fuel with
  | 0 => throw Err.fuel
  | f + 1 => do
    let ty ← tokType toks[pos]?
    if ty = "CHAR" then do
      let (text, p₁) ← consume toks pos "CHAR"
      pure (.comment text, p₁)
    else if ty = "Terminate" then do
      let (_, p₁) ← consume toks pos "Terminate"
      pure (.brk, maybeTerminator toks p₁)
    else if ty = "Continue" then do
      let (_, p₁) ← consume toks pos "Continue"
      pure (.cont, maybeTerminator toks p₁)
    else if ty = "ID" then do
      let (varName, p₁) ← consume toks pos "ID"
      let ty₁ ← tokType toks[p₁]?
      if ty₁ = "ASSIGN" then do
        let (_, p₂) ← consume toks p₁ "ASSIGN"
        let (expr, p₃) ← parseExpression f toks p₂
        let p₄ ← consumeTerminator toks p₃
        pure (.assign varName expr, p₄)
      else if ty₁ = "DOT" then do
        let (mc, p₂) ← parseMethodCall f toks p₁ varName
        let p₃ ← consumeTerminator toks p₂
        pure (mc, p₃)
      else do
        let (expr, p₂) ← parseExpression f toks p₁
        let p₃ ← consumeTerminator toks p₂
        pure (expr, p₃)
    else if ty = "IF" then
      parseIfStatement f toks pos
    else if ty = "LOOP" then do
      let tk ← (match toks[pos]? with
                | some t => pure t
                | none => throw (Err.typeErr "'NoneType' object is not subscriptable"))
      if tk.2 = "while" then parseWhileStatement f toks pos
      else if tk.2 = "for" then parseForStatement f toks pos
      else throw (Err.notModelled "LOOP token that is neither while nor for")
    else do
      let (expr, p₁) ← parseExpression f toks pos
      let p₂ ← consumeTerminator toks p₁
      pure (expr, p₂)
termination_by structural fuel

/-- `Parser.parse_expression`: one `parse_term`, then the left-associative
operator chain. -/
def parseExpression (fuel : ℕ) (toks : List Token) (pos : ℕ) :
    Except Err (Ast × ℕ) :=
  match fuel with
  | 0 => throw Err.fuel
  | f + 1 => do
    let (left, p₁) ← parseTerm f toks pos
    parseExprOps f toks left p₁
termination_by structural fuel

/-- The `while` chain of `parse_expression`. -/
def parseExprOps (fuel : ℕ) (toks : List Token) (left : Ast) (pos : ℕ) :
    Except Err (Ast × ℕ) :=
  match fuel with
  | 0 => throw Err.fuel
  | f + 1 =>
    match toks[pos]? with
    | some tk =>
      if tk.1 = "OP" ∧ tk.2 ∈ exprOps then do
        let (op, p₁) ← consume toks pos "OP"
        let (right, p₂) ← parseTerm f toks p₁
        parseExprOps f toks (.binop op left right) p₂
      else pure (left, pos)
    | none => pure (left, pos)
termination_by structural fuel

/-- `Parser.parse_term`. -/
def parseTerm (fuel : ℕ) (toks : List Token) (pos : ℕ) :
    Except Err (Ast × ℕ) :=
  match fuel with
  | 0 => throw Err.fuel
  | f + 1 => do
    let (left, p₁) ← parseFactor f toks pos
    parseTermOps f toks left p₁
termination_by structural fuel

/-- The `while` chain of `parse_term`. -/
def parseTermOps (fuel : ℕ) (toks : List Token) (left : Ast) (pos : ℕ) :
    Except Err (Ast × ℕ) :=
  match fuel with
  | 0 => throw Err.fuel
  | f + 1 =>
    match toks[pos]? with
    | some tk =>
      if tk.1 = "OP" ∧ tk.2 ∈ termOps then do
        let (op, p₁) ← consume toks pos "OP"
        let (right, p₂) ← parseFactor f toks p₁
        parseTermOps f toks (.binop op left right) p₂
      else pure (left, pos)
    | none => pure (left, pos)
termination_by structural fuel

/-- `Parser.parse_factor`. -/
def parseFactor (fuel : ℕ) (toks : List Token) (pos : ℕ) :
    Except Err (Ast × ℕ) :=
  match fuel with
  | 0 => throw Err.fuel
  | f + 1 =>
    match toks[pos]? with
    | none => throw (Err.typeErr "'NoneType' object is not subscriptable")
    | some tk =>
      if tk.1 = "NUMBER" then do
        let (v, p₁) ← consume toks pos "NUMBER"
        pure (.number v, p₁)
      else if tk.1 = "BOOL" then do
        let (v, p₁) ← consume toks pos "BOOL"
        pure (.boolLit v, p₁)
      else if tk.1 = "ID" then
        parseIdOrCall f toks pos
      else if tk.1 = "OP" ∧ tk.2 = "(" then do
        let (_, p₁) ← consume toks pos "OP"
        let (expr, p₂) ← parseExpression f toks p₁
        let (_, p₃) ← consume toks p₂ "OP"
        pure (expr, p₃)
      else if tk.1 = "Class" then
        parseClassInstantiation f toks pos
      else if tk.1 = "CHAR" then do
        let (v, p₁) ← consume toks pos "CHAR"
        pure (.charLit v, p₁)
      else if tk.1 = "FUNC" then
        parseFunctionCall f toks pos
      else throw (Err.runtime "Unexpected token in parse_factor")
termination_by structural fuel

/-- `Parser.parse_id_or_call`. -/
def parseIdOrCall (fuel : ℕ) (toks : List Token) (pos : ℕ) :
    Except Err (Ast × ℕ) :=
  match fuel with
  | 0 => throw Err.fuel
  | f + 1 => do
    let (varName, p₁) ← consume toks pos "ID"
    match toks[p₁]? with
    | none => throw (Err.typeErr "'NoneType' object is not subscriptable")
    | some tk =>
      if tk.1 = "OP" ∧ tk.2 = "(" then parseFunctionCall f toks p₁
      else if tk.1 = "DOT" then parseMethodCall f toks p₁ varName
      else pure (.ident varName, p₁)
termination_by structural fuel

/-- `Parser.parse_function_call`. -/
def parseFunctionCall (fuel : ℕ) (toks : List Token) (pos : ℕ) :
    Except Err (Ast × ℕ) :=
  match fuel with
  | 0 => throw Err.fuel
  | f + 1 => do
    let (funcName, p₁) ← consume toks pos "FUNC"
    let (_, p₂) ← consume toks p₁ "OP"
    match toks[p₂]? with
    | none => throw (Err.typeErr "'NoneType' object is not subscriptable")
    | some tk =>
      if tk.1 ≠ "OP" ∨ tk.2 ≠ ")" then do
        let (a, p₃) ← parseExpression f toks p₂
        let (args, p₄) ← argsLoopGuarded f toks p₃ [a]
        let (_, p₅) ← consume toks p₄ "OP"
        pure (.call funcName args, p₅)
      else do
        let (_, p₃) ← consume toks p₂ "OP"
        pure (.call funcName [], p₃)
termination_by structural fuel

/-- The argument loop of `parse_function_call`, whose `while` condition
guards against the end of the token list. -/
def argsLoopGuarded (fuel : ℕ) (toks : List Token) (pos : ℕ) (acc : List Ast) :
    Except Err (List Ast × ℕ) :=
  match fuel with
  | 0 => throw Err.fuel
  | f + 1 =>
    match toks[pos]? with
    | some tk =>
      if tk.1 = "COMMA" then do
        let (_, p₁) ← consume toks pos "COMMA"
        let (a, p₂) ← parseExpression f toks p₁
        argsLoopGuarded f toks p₂ (a :: acc)
      else pure (acc.reverse, pos)
    | none => pure (acc.reverse, pos)
termination_by structural fuel

/-- The argument loops of `parse_method_call` and
`parse_class_instantiation`, whose `while` conditions subscript the
current token without a `None` guard. -/
def argsLoopStrict (fuel : ℕ) (toks : List Token) (pos : ℕ) (acc : List Ast) :
    Except Err (List Ast × ℕ) :=
  match fuel with
  | 0 => throw Err.fuel
  | f + 1 =>
    match toks[pos]? with
    | some tk =>
      if tk.1 = "COMMA" then do
        let (_, p₁) ← consume toks pos "COMMA"
        let (a, p₂) ← parseExpression f toks p₁
        argsLoopStrict f toks p₂ (a :: acc)
      else pure (acc.reverse, pos)
    | none => throw (Err.typeErr "'NoneType' object is not subscriptable")
termination_by structural fuel

/-- `Parser.parse_method_call` (the object name was already consumed by
the caller). -/
def parseMethodCall (fuel : ℕ) (toks : List Token) (pos : ℕ) (objName : String) :
    Except Err (Ast × ℕ) :=
  match fuel with
  | 0 => throw Err.fuel
  | f + 1 => do
    let (_, p₁) ← consume toks pos "DOT"
    let (methName, p₂) ← consume toks p₁ "ID"
    let (_, p₃) ← consume toks p₂ "OP"
    match toks[p₃]? with
    | none => throw (Err.typeErr "'NoneType' object is not subscriptable")
    | some tk =>
      if tk.1 ≠ "OP" ∨ tk.2 ≠ ")" then do
        let (a, p₄) ← parseExpression f toks p₃
        let (args, p₅) ← argsLoopStrict f toks p₄ [a]
        let (_, p₆) ← consume toks p₅ "OP"
        pure (.methodCall objName methName args, p₆)
      else do
        let (_, p₄) ← consume toks p₃ "OP"
        pure (.methodCall objName methName [], p₄)
termination_by structural fuel

/-- `Parser.parse_class_instantiation`. -/
def parseClassInstantiation (fuel : ℕ) (toks : List Token) (pos : ℕ) :
    Except Err (Ast × ℕ) :=
  match fuel with
  | 0 => throw Err.fuel
  | f + 1 => do
    let (className, p₁) ← consume toks pos "Class"
    let (_, p₂) ← consume toks p₁ "OP"
    match toks[p₂]? with
    | none => throw (Err.typeErr "'NoneType' object is not subscriptable")
    | some tk =>
      if tk.1 ≠ "OP" ∨ tk.2 ≠ ")" then do
        let (a, p₃) ← parseExpression f toks p₂
        let (args, p₄) ← argsLoopStrict f toks p₃ [a]
        let (_, p₅) ← consume toks p₄ "OP"
        pure (.classInst className args, p₅)
      else do
        let (_, p₃) ← consume toks p₂ "OP"
        pure (.classInst className [], p₃)
termination_by structural fuel

/-- The statement-list loops of `parse_if_statement`,
`parse_while_statement` and `parse_for_statement`
(`while self.current_token() and not '}'`). -/
def parseBody (fuel : ℕ) (toks : List Token) (pos : ℕ) (acc : List Ast) :
    Except Err (List Ast × ℕ) :=
  match fuel with
  | 0 => throw Err.fuel
  | f + 1 =>
    match toks[pos]? with
    | some tk =>
      if tk.1 = "OP" ∧ tk.2 = "\x7d" then pure (acc.reverse, pos)
      else do
        let (s, p₁) ← parseStatement f toks pos
        parseBody f toks p₁ (s :: acc)
    | none => pure (acc.reverse, pos)
termination_by structural fuel

/-- `Parser.parse_if_statement`. -/
def parseIfStatement (fuel : ℕ) (toks : List Token) (pos : ℕ) :
    Except Err (Ast × ℕ) :=
  match fuel with
  | 0 => throw Err.fuel
  | f + 1 => do
    let (_, p₁) ← consume toks pos "IF"
    let (_, p₂) ← consume toks p₁ "OP"
    let (condE, p₃) ← parseExpression f toks p₂
    let (_, p₄) ← consume toks p₃ "OP"
    let (_, p₅) ← consume toks p₄ "OP"
    let (body, p₆) ← parseBody f toks p₅ []
    let (_, p₇) ← consume toks p₆ "OP"
    match toks[p₇]? with
    | some tk =>
      if tk.1 = "ELSE" then do
        let (_, q₁) ← consume toks p₇ "ELSE"
        let (_, q₂) ← consume toks q₁ "OP"
        let (ebody, q₃) ← parseBody f toks q₂ []
        let (_, q₄) ← consume toks q₃ "OP"
        pure (.ifElse condE body ebody, q₄)
      else pure (.ifOnly condE body, p₇)
    | none => pure (.ifOnly condE body, p₇)
termination_by structural fuel

/-- `Parser.parse_while_statement`. -/
def parseWhileStatement (fuel : ℕ) (toks : List Token) (pos : ℕ) :
    Except Err (Ast × ℕ) :=
  match fuel with
  | 0 => throw Err.fuel
  | f + 1 => do
    let (_, p₁) ← consume toks pos "LOOP"
    let (_, p₂) ← consume toks p₁ "OP"
    let (condE, p₃) ← parseExpression f toks p₂
    let (_, p₄) ← consume toks p₃ "OP"
    let (_, p₅) ← consume toks p₄ "OP"
    let (body, p₆) ← parseBody f toks p₅ []
    let (_, p₇) ← consume toks p₆ "OP"
    pure (.whileLoop condE body, p₇)
termination_by structural fuel

/-- `Parser.parse_for_statement`. -/
def parseForStatement (fuel : ℕ) (toks : List Token) (pos : ℕ) :
    Except Err (Ast × ℕ) :=
  match fuel with
  | 0 => throw Err.fuel
  | f + 1 => do
    let (_, p₁) ← consume toks pos "LOOP"
    let (_, p₂) ← consume toks p₁ "OP"
    let (initVar, p₃) ← consume toks p₂ "ID"
    let (_, p₄) ← consume toks p₃ "ASSIGN"
    let (initExpr, p₅) ← parseExpression f toks p₄
    let p₆ ← (consume toks p₅ "SEMICOLON").map Prod.snd
    let (condE, p₇) ← parseExpression f toks p₆
    let p₈ ← (consume toks p₇ "SEMICOLON").map Prod.snd
    let (incrVar, p₉) ← consume toks p₈ "ID"
    let (_, q₁) ← consume toks p₉ "ASSIGN"
    let (incrExpr, q₂) ← parseExpression f toks q₁
    let (_, q₃) ← consume toks q₂ "OP"
    let (_, q₄) ← consume toks q₃ "OP"
    let (body, q₅) ← parseBody f toks q₄ []
    let (_, q₆) ← consume toks q₅ "OP"
    pure (.forLoop (.assign initVar initExpr) condE (.assign incrVar incrExpr) body, q₆)
termination_by structural fuel

end

/-- `Parser(tokens).parse()` with a fuel bound generous enough for every
program whose parse terminates (fuel is consumed once per call and every
statement consumes at least one token). -/
def parseTokens (toks : List Token) : Except Err (List Ast) :=
  parseProgram (4 * toks.length + 32) toks 0 []

/-! ### Values and the mathforlenguage helper -/

/-- Runtime values.  Python floats are carried as exact rationals (only
their type tag and exact arithmetic matter to any claim); `StringBeans`,
`Arrays` and `Shmuple` instances are references into the interpreter
state's heaps, so that Python's in-place mutation and object identity
are represented.  `noneV` is Python `None`. -/
inductive Value
  | int (n : ℤ)
  | float (q : ℚ)
  | bool (b : Bool)
  | str (s : String)
  | noneV
  | sbRef (r : ℕ)
  | arrRef (r : ℕ)
  | shmRef (r : ℕ)
deriving DecidableEq, Repr

/-- Python `bool` seen as the number 0 or 1. -/
def boolInt (b : Bool) : ℤ := if b then 1 else 0

/-- A rational is equal to an integer iff it is that integer in lowest
terms (rationals are stored normalized). -/
def ratEqInt (q : ℚ) (n : ℤ) : Bool := q.den == 1 && q.num == n

/-- Python `==` on the modelled values: numbers compare numerically
across int/float/bool, strings by content, `None` to itself, and the
heap-allocated objects (which define no `__eq__`) by identity. -/
def pyEq (x y : Value) : Bool :=
  match x, y with
  | .int a, .int b => a == b
  | .int a, .bool b => a == boolInt b
  | .bool a, .int b => boolInt a == b
  | .bool a, .bool b => a == b
  | .float a, .float b => a == b
  | .int a, .float q => ratEqInt q a
  | .float q, .int a => ratEqInt q a
  | .bool a, .float q => ratEqInt q (boolInt a)
  | .float q, .bool a => ratEqInt q (boolInt a)
  | .str a, .str b => a == b
  | .noneV, .noneV => true
  | .sbRef a, .sbRef b => a == b
  | .arrRef a, .arrRef b => a == b
  | .shmRef a, .shmRef b => a == b
  | _, _ => false

/-- Python truthiness (`bool(value)`), used by `if`/`while`/`for`
condition tests: numbers are truthy iff nonzero, strings iff nonempty,
`None` is falsy, objects are truthy. -/
def pyTruthy : Value → Bool
  | .int n => n != 0
  | .float q => q != 0
  | .bool b => b
  | .str s => s != ""
  | .noneV => false
  | .sbRef _ => true
  | .arrRef _ => true
  | .shmRef _ => true

/-- `Interpreter.to_bool`, the coercion applied to `&&`/`||` operands:
booleans pass through, numbers are truthy iff nonzero, strings are
truthy iff case-insensitively equal to "true", and everything else falls
back to Python truthiness. -/
def toBool : Value → Bool
  | .bool b => b
  | .int n => n != 0
  | .float q => q != 0
  | .str s => s.toLower == "true"
  | v => pyTruthy v

/-- Python `x < y`: numeric or string-to-string comparison, a TypeError
otherwise. -/
def pyLt (x y : Value) : Except Err Bool :=
  match x, y with
  | .int a, .int b => pure (decide (a < b))
  | .int a, .bool b => pure (decide (a < boolInt b))
  | .bool a, .int b => pure (decide (boolInt a < b))
  | .bool a, .bool b => pure (decide (boolInt a < boolInt b))
  | .float a, .float b => pure (decide (a < b))
  | .int a, .float q => pure (decide ((a : ℚ) < q))
  | .float q, .int a => pure (decide (q < (a : ℚ)))
  | .bool a, .float q => pure (decide ((boolInt a : ℚ) < q))
  | .float q, .bool a => pure (decide (q < (boolInt a : ℚ)))
  | .str a, .str b => pure (decide (a < b))
  | _, _ => throw (Err.typeErr "comparison not supported between these operand types")

/-- Python `x + y` as used by `mathforlenguage.Add` and
`StringBeans.Conjoin`: numeric addition (int unless a float operand is
involved), string concatenation, otherwise a TypeError. -/
def pyAdd (x y : Value) : Except Err Value :=
  match x, y with
  | .int a, .int b => pure (.int (a + b))
  | .int a, .bool b => pure (.int (a + boolInt b))
  | .bool a, .int b => pure (.int (boolInt a + b))
  | .bool a, .bool b => pure (.int (boolInt a + boolInt b))
  | .float a, .float b => pure (.float (a + b))
  | .int a, .float q => pure (.float ((a : ℚ) + q))
  | .float q, .int a => pure (.float (q + (a : ℚ)))
  | .bool a, .float q => pure (.float ((boolInt a : ℚ) + q))
  | .float q, .bool a => pure (.float (q + (boolInt a : ℚ)))
  | .str a, .str b => pure (.str (a ++ b))
  | _, _ => throw (Err.typeErr "unsupported operand type(s) for +")

/-- The ordered-association-list model of a Python dict, backing both
the Environment and the helper's dictionary. -/
def dictGet : List (String × Value) → String → Option Value
  | [], _ => none
  | (k, v) :: rest, key => if k = key then some v else dictGet rest key

/-- Python `d[key] = v`: replace in place, or append a new binding. -/
def dictSet : List (String × Value) → String → Value → List (String × Value)
  | [], key, v => [(key, v)]
  | (k, w) :: rest, key, v =>
    if k = key then (key, v) :: rest else (k, w) :: dictSet rest key v

/-- Python `del d[key]` once the key is known to be present. -/
def dictDel : List (String × Value) → String → List (String × Value)
  | [], _ => []
  | (k, w) :: rest, key => if k = key then rest else (k, w) :: dictDel rest key

namespace mfl

/-- `mathforlenguage.Add`. -/
def Add (x y : Value) : Except Err Value := pyAdd x y

/-- `mathforlenguage.Subtract`. -/
def Subtract (x y : Value) : Except Err Value :=
  match x, y with
  | .int a, .int b => pure (.int (a - b))
  | .int a, .bool b => pure (.int (a - boolInt b))
  | .bool a, .int b => pure (.int (boolInt a - b))
  | .bool a, .bool b => pure (.int (boolInt a - boolInt b))
  | .float a, .float b => pure (.float (a - b))
  | .int a, .float q => pure (.float ((a : ℚ) - q))
  | .float q, .int a => pure (.float (q - (a : ℚ)))
  | .bool a, .float q => pure (.float ((boolInt a : ℚ) - q))
  | .float q, .bool a => pure (.float (q - (boolInt a : ℚ)))
  | _, _ => throw (Err.typeErr "unsupported operand type(s) for -")

/-- `mathforlenguage.Multiply` (Python also repeats a string by an
int/bool factor). -/
def Multiply (x y : Value) : Except Err Value :=
  match x, y with
  | .int a, .int b => pure (.int (a * b))
  | .int a, .bool b => pure (.int (a * boolInt b))
  | .bool a, .int b => pure (.int (boolInt a * b))
  | .bool a, .bool b => pure (.int (boolInt a * boolInt b))
  | .float a, .float b => pure (.float (a * b))
  | .int a, .float q => pure (.float ((a : ℚ) * q))
  | .float q, .int a => pure (.float (q * (a : ℚ)))
  | .bool a, .float q => pure (.float ((boolInt a : ℚ) * q))
  | .float q, .bool a => pure (.float (q * (boolInt a : ℚ)))
  | .str s, .int n => pure (.str (String.join (List.replicate n.toNat s)))
  | .int n, .str s => pure (.str (String.join (List.replicate n.toNat s)))
  | .str s, .bool b => pure (.str (if b then s else ""))
  | .bool b, .str s => pure (.str (if b then s else ""))
  | _, _ => throw (Err.typeErr "unsupported operand type(s) for *")

/-- A numeric operand as an exact rational, for the float-valued
operations (`/` always returns a float in Python 3). -/
def asRat? : Value → Option ℚ
  | .int n => some (n : ℚ)
  | .bool b => some ((boolInt b : ℚ))
  | .float q => some q
  | _ => none

/-- `mathforlenguage.Divide`: Python 3 true division — the result is
always a float, and a zero divisor raises. -/
def Divide (x y : Value) : Except Err Value :=
  match asRat? x, asRat? y with
  | some a, some b =>
    if b == 0 then throw (Err.zeroDivErr "division by zero")
    else pure (.float (a / b))
  | _, _ => throw (Err.typeErr "unsupported operand type(s) for /")

/-- `mathforlenguage.Pow` (`x ** y`): an int base and non-negative int
exponent give an int; a negative int exponent gives a float.  Float
operands need machine floats and are not modelled (no claim uses
them). -/
def Pow (x y : Value) : Except Err Value :=
  match x, y with
  | .int a, .int b =>
    if b ≥ 0 then pure (.int (a ^ b.toNat))
    else if a = 0 then throw (Err.zeroDivErr "0 cannot be raised to a negative power")
    else pure (.float ((a : ℚ) ^ b))
  | .int a, .bool b => pure (.int (a ^ (boolInt b).toNat))
  | .bool a, .int b =>
    if b ≥ 0 then pure (.int (boolInt a ^ b.toNat))
    else if a = false then throw (Err.zeroDivErr "0 cannot be raised to a negative power")
    else pure (.int 1)
  | .bool a, .bool b => pure (.int (boolInt a ^ (boolInt b).toNat))
  | .float _, _ => throw (Err.notModelled "float exponentiation")
  | _, .float _ => throw (Err.notModelled "float exponentiation")
  | _, _ => throw (Err.typeErr "unsupported operand type(s) for **")

/-- `mathforlenguage.Min` (`x if x < y else y`). -/
def Min (x y : Value) : Except Err Value := do
  let lt ← pyLt x y
  pure (if lt then x else y)

/-- `mathforlenguage.Max` (`x if x > y else y`). -/
def Max (x y : Value) : Except Err Value := do
  let gt ← pyLt y x
  pure (if gt then x else y)

/-- `mathforlenguage.assign`: `self.Dict[x] = y`. -/
def assign (Dict : List (String × Value)) (x : String) (y : Value) :
    List (String × Value) :=
  dictSet Dict x y

/-- `mathforlenguage.Equal`: `some` of a Python bool when one of the four
`type(...)` tests fires, `none` (Python `None`) when the operands fall
through all four — e.g. two bools or two floats, since `type(True)` and
`type(5.0)` are not `int`.  A string operand is looked up in the
helper's own dictionary (`self.Dict[x]`), raising KeyError when absent;
an int-then-string pair raises the asymmetric TypeError. -/
def Equal (Dict : List (String × Value)) (x y : Value) : Except Err (Option Bool) :=
  match x, y with
  | .int a, .int b => pure (some (a == b))
  | .int _, .str _ =>
    throw (Err.typeErr "action can't be between a number and a literal. the literal must come first")
  | .str s, .int b =>
    (match dictGet Dict s with
     | some v => pure (some (pyEq v (.int b)))
     | none => throw (Err.keyErr s))
  | .str s, .str t =>
    (match dictGet Dict s with
     | some v =>
       (match dictGet Dict t with
        | some w => pure (some (pyEq v w))
        | none => throw (Err.keyErr t))
     | none => throw (Err.keyErr s))
  | _, _ => pure none

/-- `mathforlenguage.notEqual`: Python `not self.Equal(x, y)` — and
`not None` is `True`. -/
def notEqual (Dict : List (String × Value)) (x y : Value) : Except Err Bool :=
  (Equal Dict x y).map (fun res =>
    match res with
    | some b => !b
    | none => true)

/-- `mathforlenguage.less`. -/
def less (x y : Value) : Except Err Bool := pyLt x y

/-- `mathforlenguage.greater` (`x > y`, i.e. `y < x`). -/
def greater (x y : Value) : Except Err Bool := pyLt y x

/-- `mathforlenguage.And`. -/
def And (x y : Bool) : Bool := x && y

/-- `mathforlenguage.Or`. -/
def Or (x y : Bool) : Bool := x || y

end mfl

/-! ### Interpreter -/

/-- Python `s.strip('"')`: remove every leading and trailing quote
character (the lexer's CHAR token text carries the closing quote). -/
def stripQuotes (s : String) : String :=
  String.mk (((s.data.dropWhile (· = '"')).reverse.dropWhile (· = '"')).reverse)

/-- The numeric value of a digit string. -/
def digitsNat (ds : List Char) : ℕ :=
  ds.foldl (fun acc c => 10 * acc + (c.toNat - '0'.toNat)) 0

/-- Python `int(text)` on the texts the lexer can put in a NUMBER token
(digits, '.' and a leading '-'): an optional sign followed by a nonempty
run of digits; anything else — in particular any text containing a
decimal point — raises ValueError. -/
def pyInt? (s : String) : Option ℤ :=
  let signSplit : Bool × List Char :=
    match s.data with
    | '-' :: rest => (true, rest)
    | '+' :: rest => (false, rest)
    | cs => (false, cs)
  if signSplit.2 ≠ [] ∧ signSplit.2.all Char.isDigit then
    some ((if signSplit.1 then -1 else 1) * (digitsNat signSplit.2 : ℤ))
  else none

/-- The mutable state of one `Interpreter` instance: the Environment
(`self.variables`), the helper's dictionary (`self.math.Dict`), the
heaps backing the three composite types, and `self.current_statement`. -/
structure St where
  vars : List (String × Value)
  mathDict : List (String × Value)
  sbHeap : List Value
  arrHeap : List (ℤ × List Value)
  shmHeap : List (List Value)
  current : Option Ast
deriving Repr

/-- `Interpreter.__init__`. -/
def initSt : St := ⟨[], [], [], [], [], none⟩

/-- Python `name in statement` on a raw statement tuple: membership
tests the name against each top-level tuple element with `==`, so only
the tag string and the string-typed fields can match (nested tuples and
statement lists never compare equal to a string). -/
def astMem (stmt : Ast) (s : String) : Bool :=
  match stmt with
  | .assign n _ => s == "ASSIGN" || s == n
  | .ifOnly _ _ => s == "IF"
  | .ifElse _ _ _ => s == "IF_ELSE"
  | .whileLoop _ _ => s == "WHILE"
  | .forLoop _ _ _ _ => s == "FOR"
  | .brk => s == "BREAK"
  | .cont => s == "CONTINUE"
  | .comment t => s == "COMMENT" || s == t
  | .call fn _ => s == "CALL" || s == fn
  | .methodCall o m _ => s == "METHOD_CALL" || s == o || s == m
  | .classInst c _ => s == "CLASS_INST" || s == c
  | .ident n => s == "ID" || s == n
  | .number t => s == "NUMBER" || s == t
  | .boolLit t => s == "BOOL" || s == t
  | .charLit t => s == "CHAR" || s == t
  | .binop op _ _ => s == op

/-- The break/continue signal recognised by the loop-body inspection. -/
inductive Sig
  | run
  | brk
  | cont
deriving DecidableEq, Repr

/-- Python `result == 'BREAK'` on an `execute_statement` result. -/
def isBreakRes (r : Option Value) : Bool :=
  match r with
  | some v => pyEq v (.str "BREAK")
  | none => false

/-- Python `result == 'CONTINUE'`. -/
def isContRes (r : Option Value) : Bool :=
  match r with
  | some v => pyEq v (.str "CONTINUE")
  | none => false

/-- Python `result in ['BREAK', 'CONTINUE']`. -/
def isSignalRes (r : Option Value) : Bool :=
  isBreakRes r || isContRes r

/-- Read a StringBeans heap cell (`self.string_`).  References are only
created by allocation, so the dangling case is unreachable. -/
def sbGet (st : St) (r : ℕ) : Except Err Value :=
  match st.sbHeap[r]? with
  | some v => pure v
  | none => throw (Err.notModelled "dangling StringBeans reference")

/-- Overwrite a StringBeans heap cell (`self.string_ = ...`). -/
def sbSet (st : St) (r : ℕ) (v : Value) : St :=
  { st with sbHeap := st.sbHeap.set r v }

/-- Python substring containment (`haystack.__contains__(needle)`). -/
def isSubstr (hay needle : List Char) : Bool :=
  match hay with
  | [] => needle == []
  | _ :: t => needle.isPrefixOf hay || isSubstr t needle

/-- The manual scan of `StringBeans.Replace`: at each index match the
target substring and skip its length, otherwise copy one character.  An
empty target never advances in the source (an infinite loop); the fuel
reports that. -/
def replaceLoop (fuel : ℕ) (s old nw : List Char) (i : ℕ) (acc : List Char) :
    Except Err (List Char) :=
  match fuel with
  | 0 => throw Err.fuel
  | f + 1 =>
    if i < s.length then
      if (s.drop i).take old.length == old then
        replaceLoop f s old nw (i + old.length) (acc ++ nw)
      else
        match s[i]? with
        | some c => replaceLoop f s old nw (i + 1) (acc ++ [c])
        | none => throw (Err.notModelled "index inside the string length")
    else pure acc

/-- The characters of Python's `string.punctuation`. -/
def pyPunct (c : Char) : Bool :=
  decide ((33 ≤ c.toNat ∧ c.toNat ≤ 47) ∨ (58 ≤ c.toNat ∧ c.toNat ≤ 64) ∨
    (91 ≤ c.toNat ∧ c.toNat ≤ 96) ∨ (123 ≤ c.toNat ∧ c.toNat ≤ 126))

/-- `StringBeans.allUpper`: no character outside digits/punctuation lies
in `'a'..'z'`. -/
def allUpperStr (s : List Char) : Bool :=
  s.all (fun c =>
    if c.isDigit || pyPunct c then true
    else !(decide ('a' ≤ c ∧ c ≤ 'z')))

/-- `StringBeans.allLower`. -/
def allLowerStr (s : List Char) : Bool :=
  s.all (fun c =>
    if c.isDigit || pyPunct c then true
    else !(decide ('A' ≤ c ∧ c ≤ 'Z')))

/-- StringBeans method dispatch on the already-evaluated arguments.
`Conjoin` mutates the heap cell in place and returns Python `None`;
`Replace` mutates only when the target substring occurs and returns the
(possibly unchanged) string; the case-classification queries return
Python bools; `show` only prints (console output is not modelled) and
returns `None`.  `splitBeans` builds an `Arrays` value no claim
consumes and is left unmodelled.  A wrong number of arguments is a
Python TypeError. -/
def sbInvoke (r : ℕ) (methName : String) (vals : List Value) (st : St) :
    Except Err (Value × St) :=
  match methName, vals with
  | "Conjoin", [v] => do
    let cell ← sbGet st r
    let joined ← pyAdd cell v
    pure (Value.noneV, sbSet st r joined)
  | "show", [] => pure (Value.noneV, st)
  | "allUpper", [] => do
    let cell ← sbGet st r
    (match cell with
     | .str s => pure (Value.bool (allUpperStr s.data), st)
     | _ => throw (Err.typeErr "iteration over a non-string"))
  | "allLower", [] => do
    let cell ← sbGet st r
    (match cell with
     | .str s => pure (Value.bool (allLowerStr s.data), st)
     | _ => throw (Err.typeErr "iteration over a non-string"))
  | "Replace", [old, nw] => do
    let cell ← sbGet st r
    (match cell, old, nw with
     | .str s, .str o, .str n =>
       if isSubstr s.data o.data then do
         let res ← replaceLoop (s.length + 2) s.data o.data n.data 0 []
         pure (Value.str (String.mk res), sbSet st r (Value.str (String.mk res)))
       else pure (Value.str s, st)
     | _, _, _ => throw (Err.typeErr "Replace on non-string operands"))
  | "splitBeans", [_] => throw (Err.notModelled "splitBeans builds an Arrays value")
  | _, _ => throw (Err.typeErr "wrong number of method arguments")

/-- The StringBeans attribute set `getattr` can resolve through the
language (identifiers cannot start with an underscore, so the dunder
methods are unreachable). -/
def sbMethodNames : List String :=
  ["splitBeans", "Replace", "allUpper", "allLower", "Conjoin", "show"]

/-- `Arrays.__init__`: the size must be exactly an int (`type(size) is
not int` rejects bools and floats); the backing list is `[0] * size`. -/
def arraysNew (v : Value) (st : St) : Except Err (Value × St) :=
  match v with
  | .int n =>
    pure (Value.arrRef st.arrHeap.length,
      { st with arrHeap := st.arrHeap ++ [(n, List.replicate n.toNat (Value.int 0))] })
  | _ => throw (Err.valueErr "size of array must be an integer")

/-- `Interpreter.apply_operator`: delegate to the mathforlenguage
helper.  `Equal` may return Python `None`, mapped to `noneV`; an
operator outside the table falls off the end of the `if`/`elif` chain
and returns `None`. -/
def applyOperator (mathDict : List (String × Value)) (op : String) (l r : Value) :
    Except Err Value :=
  if op = "+" then mfl.Add l r
  else if op = "-" then mfl.Subtract l r
  else if op = "*" then mfl.Multiply l r
  else if op = "/" then mfl.Divide l r
  else if op = "^" then mfl.Pow l r
  else if op = "==" then
    (mfl.Equal mathDict l r).map (fun res =>
      match res with
      | some b => Value.bool b
      | none => Value.noneV)
  else if op = "!=" then (mfl.notEqual mathDict l r).map Value.bool
  else if op = "<" then (mfl.less l r).map Value.bool
  else if op = ">" then (mfl.greater l r).map Value.bool
  else if op = "&&" then pure (Value.bool (mfl.And (toBool l) (toBool r)))
  else if op = "||" then pure (Value.bool (mfl.Or (toBool l) (toBool r)))
  else pure Value.noneV

/-- The scope-cleanup loops at the end of `execute_if_else`: delete each
name recorded for the executed branch unless it occurs in the raw tuple
of `self.current_statement` (which, after a nonempty branch, is the last
statement executed in it) or was recorded for the other branch (always
empty in one call, since only one branch runs).  `del` on an absent key
raises KeyError; `in` on `current_statement = None` raises TypeError. -/
def cleanupBranchVars (names otherNames : List String) (st : St) : Except Err St :=
  match names with
  | [] => pure st
  | n :: rest => do
    let inCur ← (match st.current with
                 | some t => pure (astMem t n)
                 | none => throw (Err.typeErr "argument of type 'NoneType' is not iterable"))
    if !inCur && !otherNames.contains n then
      if (dictGet st.vars n).isSome then
        cleanupBranchVars rest otherNames { st with vars := dictDel st.vars n }
      else throw (Err.keyErr n)
    else cleanupBranchVars rest otherNames st

/-- The loop-variable cleanup after `execute_while` (its `del` is guarded
by a membership test, so it cannot raise). -/
def cleanupLoopVarsGuarded (names : List String) (st : St) : St :=
  match names with
  | [] => st
  | n :: rest =>
    if (dictGet st.vars n).isSome then
      cleanupLoopVarsGuarded rest { st with vars := dictDel st.vars n }
    else cleanupLoopVarsGuarded rest st

/-- The loop-variable cleanup after `execute_for` (unguarded `del`:
KeyError if a recorded name is already gone). -/
def cleanupLoopVarsStrict (names : List String) (st : St) : Except Err St :=
  match names with
  | [] => pure st
  | n :: rest =>
    if (dictGet st.vars n).isSome then
      cleanupLoopVarsStrict rest { st with vars := dictDel st.vars n }
    else throw (Err.keyErr n)

mutual

/-- `Interpreter.interpret`: execute each top-level statement in order
(`parse_statement` never actually returns `None`, so the `is not None`
filter is invisible here). -/
def interpret (fuel : ℕ) (stmts : List Ast) (st : St) : Except Err St :=
  match fuel with
  | 0 => throw Err.fuel
  | f + 1 =>
    match stmts with
    | [] => pure st
    | s :: rest => do
      let (_, st₁) ← executeStatement f s st
      interpret f rest st₁
termination_by structural fuel

/-- `Interpreter.execute_statement`: record the statement in
`current_statement` and dispatch on its tag.  Tags with no dispatch
case — plain `IF` statements reached outside a loop body, expression
statements such as bare calls or binary expressions — fall off the
`if`/`elif` chain and return `None` without executing anything. -/
def executeStatement (fuel : ℕ) (stmt : Ast) (st : St) :
    Except Err (Option Value × St) :=
  match fuel with
  | 0 => throw Err.fuel
  | f + 1 =>
    let st := { st with current := some stmt }
    match stmt with
    | .assign name expr => do
      let st₁ ← executeAssignment f name expr st
      pure (none, st₁)
    | .ifElse _ _ _ => do
      let (_, st₁) ← executeIfElse f stmt st
      pure (none, st₁)
    | .whileLoop _ _ => do
      let st₁ ← executeWhile f stmt st
      pure (none, st₁)
    | .forLoop _ _ _ _ => do
      let st₁ ← executeFor f stmt st
      pure (none, st₁)
    | .methodCall obj meth args => do
      let (v, st₁) ← executeMethodCall f obj meth args st
      pure (some v, st₁)
    | .classInst cls args => do
      let (v, st₁) ← executeClassInstantiation f cls args st
      pure (some v, st₁)
    | .ident name =>
      (match dictGet st.vars name with
       | some v => pure (some v, st)
       | none => throw (Err.nameErr ("Name '" ++ name ++ "' is not defined")))
    | .brk => pure (some (.str "BREAK"), st)
    | .cont => pure (some (.str "CONTINUE"), st)
    | .comment _ => pure (none, st)
    | _ => pure (none, st)
termination_by structural fuel

/-- `Interpreter.execute_assignment`: evaluate the right-hand side
(class instantiations and bare identifiers are special-cased), store a
`__copy__` when the value is a StringBeans instance (the redundant
`elif isinstance(value, bool)` branch stores like the `else`), and
mirror the original, uncopied value into the helper's dictionary via
`self.math.assign`. -/
def executeAssignment (fuel : ℕ) (name : String) (expr : Ast) (st : St) :
    Except Err St :=
  match fuel with
  | 0 => throw Err.fuel
  | f + 1 => do
    let (value, st₁) ←
      (match expr with
       | .classInst cls args => executeClassInstantiation f cls args st
       | .ident x =>
         (match dictGet st.vars x with
          | some v => pure (v, st)
          | none => throw (Err.nameErr ("Name '" ++ x ++ "' is not defined")))
       | _ => evaluateExpression f expr st)
    let (stored, st₂) ←
      (match value with
       | .sbRef r => do
         let payload ← sbGet st₁ r
         pure (Value.sbRef st₁.sbHeap.length,
               { st₁ with sbHeap := st₁.sbHeap ++ [payload] })
       | v => pure (v, st₁))
    pure { st₂ with
      vars := dictSet st₂.vars name stored,
      mathDict := mfl.assign st₂.mathDict name value }
termination_by structural fuel

/-- The statement loop of one branch of `execute_if_else`: record names
assigned by `ASSIGN` statements, execute each statement, and return
early — skipping the scope cleanup — on a BREAK/CONTINUE result. -/
def execBranch (fuel : ℕ) (body : List Ast) (vars : List String) (st : St) :
    Except Err (Option (Option Value) × List String × St) :=
  match fuel with
  | 0 => throw Err.fuel
  | f + 1 =>
    match body with
    | [] => pure (none, vars, st)
    | stmt :: rest => do
      let vars₁ :=
        match stmt with
        | .assign n _ => if vars.contains n then vars else vars ++ [n]
        | _ => vars
      let (r, st₁) ← executeStatement f stmt st
      if isSignalRes r then pure (some r, vars₁, st₁)
      else execBranch f rest vars₁ st₁
termination_by structural fuel

/-- `Interpreter.execute_if_else` (handles both `IF` and `IF_ELSE`
tuples): evaluate the condition by Python truthiness, run exactly one
branch, then delete that branch's newly recorded assignments subject to
the raw-tuple membership test on `current_statement`. -/
def executeIfElse (fuel : ℕ) (stmt : Ast) (st : St) :
    Except Err (Option Value × St) :=
  match fuel with
  | 0 => throw Err.fuel
  | f + 1 => do
    let (condE, ifBody, elseBody) ←
      (match stmt with
       | .ifOnly c b => pure (c, b, ([] : List Ast))
       | .ifElse c b e => pure (c, b, e)
       | _ => throw (Err.typeErr "cannot unpack an if statement"))
    let (cv, st₁) ← evaluateExpression f condE st
    if pyTruthy cv then do
      let (early, ifVars, st₂) ← execBranch f ifBody [] st₁
      (match early with
       | some r => pure (r, st₂)
       | none => do
         let st₃ ← cleanupBranchVars ifVars [] st₂
         pure (none, st₃))
    else do
      let (early, elseVars, st₂) ← execBranch f elseBody [] st₁
      (match early with
       | some r => pure (r, st₂)
       | none => do
         let st₃ ← cleanupBranchVars elseVars [] st₂
         pure (none, st₃))
termination_by structural fuel

/-- `Interpreter.execute_while`. -/
def executeWhile (fuel : ℕ) (stmt : Ast) (st : St) : Except Err St :=
  match fuel with
  | 0 => throw Err.fuel
  | f + 1 => do
    let (condE, body) ←
      (match stmt with
       | .whileLoop c b => pure (c, b)
       | _ => throw (Err.typeErr "cannot unpack a while statement"))
    let (lv, st₁) ← whileIterate f condE body [] st
    pure (cleanupLoopVarsGuarded lv st₁)
termination_by structural fuel

/-- The condition/body loop of `execute_while`: a BREAK signal exits,
a CONTINUE signal (like a normal iteration) re-evaluates the
condition. -/
def whileIterate (fuel : ℕ) (condE : Ast) (body : List Ast)
    (loopVars : List String) (st : St) : Except Err (List String × St) :=
  match fuel with
  | 0 => throw Err.fuel
  | f + 1 => do
    let (cv, st₁) ← evaluateExpression f condE st
    if pyTruthy cv then do
      let (lv, sig, st₂) ← runWhileBody f body loopVars st₁
      (match sig with
       | Sig.brk => pure (lv, st₂)
       | _ => whileIterate f condE body lv st₂)
    else pure (loopVars, st₁)
termination_by structural fuel

/-- The statement loop of one `while` iteration, with the source's
special cases: names assigned while absent from the Environment are
recorded, `BREAK`/`CONTINUE` statements stop the iteration with the
matching signal without being executed, comments are skipped, and
`IF`/`IF_ELSE` statements run via `execute_if_else` so that a branch's
BREAK/CONTINUE propagates to the loop; any other statement's result is
compared against the signal strings. -/
def runWhileBody (fuel : ℕ) (body : List Ast) (loopVars : List String) (st : St) :
    Except Err (List String × Sig × St) :=
  match fuel with
  | 0 => throw Err.fuel
  | f + 1 =>
    match body with
    | [] => pure (loopVars, Sig.run, st)
    | stmt :: rest =>
      match stmt with
      | .assign n _ => do
        let lv := if (dictGet st.vars n).isNone ∧ ¬ loopVars.contains n
                  then loopVars ++ [n] else loopVars
        let (r, st₁) ← executeStatement f stmt st
        if isBreakRes r then pure (lv, Sig.brk, st₁)
        else if isContRes r then pure (lv, Sig.cont, st₁)
        else runWhileBody f rest lv st₁
      | .brk => pure (loopVars, Sig.brk, st)
      | .cont => pure (loopVars, Sig.cont, st)
      | .comment _ => runWhileBody f rest loopVars st
      | .ifOnly _ _ => do
        let (r, st₁) ← executeIfElse f stmt st
        if isBreakRes r then pure (loopVars, Sig.brk, st₁)
        else if isContRes r then pure (loopVars, Sig.cont, st₁)
        else runWhileBody f rest loopVars st₁
      | .ifElse _ _ _ => do
        let (r, st₁) ← executeIfElse f stmt st
        if isBreakRes r then pure (loopVars, Sig.brk, st₁)
        else if isContRes r then pure (loopVars, Sig.cont, st₁)
        else runWhileBody f rest loopVars st₁
      | _ => do
        let (r, st₁) ← executeStatement f stmt st
        if isBreakRes r then pure (loopVars, Sig.brk, st₁)
        else if isContRes r then pure (loopVars, Sig.cont, st₁)
        else runWhileBody f rest loopVars st₁
termination_by structural fuel

/-- `Interpreter.execute_for`: note whether the loop counter pre-existed,
run the init assignment, iterate, then delete the loop-body variables
(unguarded) and finally the counter iff it did not pre-exist. -/
def executeFor (fuel : ℕ) (stmt : Ast) (st : St) : Except Err St :=
  match fuel with
  | 0 => throw Err.fuel
  | f + 1 => do
    let (ini, condE, incr, body) ←
      (match stmt with
       | .forLoop i c n b => pure (i, c, n, b)
       | _ => throw (Err.typeErr "cannot unpack a for statement"))
    let loopCounter ←
      (match ini with
       | .assign n _ => pure n
       | _ => throw (Err.typeErr "for-loop init is not an assignment"))
    let counterExists := (dictGet st.vars loopCounter).isSome
    let (_, st₁) ← executeStatement f ini st
    let (lv, st₂) ← forIterate f condE incr body [] st₁
    let st₃ ← cleanupLoopVarsStrict lv st₂
    if counterExists then pure st₃
    else
      (if (dictGet st₃.vars loopCounter).isSome then
        pure { st₃ with vars := dictDel st₃.vars loopCounter }
      else throw (Err.keyErr loopCounter))
termination_by structural fuel

/-- The condition/body loop of `execute_for`: a BREAK signal exits at
once, skipping the increment; otherwise — also after a CONTINUE
signal — the increment assignment is executed before the condition is
re-evaluated. -/
def forIterate (fuel : ℕ) (condE incr : Ast) (body : List Ast)
    (loopVars : List String) (st : St) : Except Err (List String × St) :=
  match fuel with
  | 0 => throw Err.fuel
  | f + 1 => do
    let (cv, st₁) ← evaluateExpression f condE st
    if pyTruthy cv then do
      let (lv, sig, st₂) ← runForBody f body loopVars st₁
      (match sig with
       | Sig.brk => pure (lv, st₂)
       | _ => do
         let (_, st₃) ← executeStatement f incr st₂
         forIterate f condE incr body lv st₃)
    else pure (loopVars, st₁)
termination_by structural fuel

/-- The statement loop of one `for` iteration: as for `while` but with
no special `COMMENT` case (a comment reaches `execute_statement`, which
ignores it). -/
def runForBody (fuel : ℕ) (body : List Ast) (loopVars : List String) (st : St) :
    Except Err (List String × Sig × St) :=
  match fuel with
  | 0 => throw Err.fuel
  | f + 1 =>
    match body with
    | [] => pure (loopVars, Sig.run, st)
    | stmt :: rest =>
      match stmt with
      | .assign n _ => do
        let lv := if (dictGet st.vars n).isNone ∧ ¬ loopVars.contains n
                  then loopVars ++ [n] else loopVars
        let (r, st₁) ← executeStatement f stmt st
        if isBreakRes r then pure (lv, Sig.brk, st₁)
        else if isContRes r then pure (lv, Sig.cont, st₁)
        else runForBody f rest lv st₁
      | .brk => pure (loopVars, Sig.brk, st)
      | .cont => pure (loopVars, Sig.cont, st)
      | .ifOnly _ _ => do
        let (r, st₁) ← executeIfElse f stmt st
        if isBreakRes r then pure (loopVars, Sig.brk, st₁)
        else if isContRes r then pure (loopVars, Sig.cont, st₁)
        else runForBody f rest loopVars st₁
      | .ifElse _ _ _ => do
        let (r, st₁) ← executeIfElse f stmt st
        if isBreakRes r then pure (loopVars, Sig.brk, st₁)
        else if isContRes r then pure (loopVars, Sig.cont, st₁)
        else runForBody f rest loopVars st₁
      | _ => do
        let (r, st₁) ← executeStatement f stmt st
        if isBreakRes r then pure (loopVars, Sig.brk, st₁)
        else if isContRes r then pure (loopVars, Sig.cont, st₁)
        else runForBody f rest loopVars st₁
termination_by structural fuel

/-- `Interpreter.execute_method_call`: resolve the receiver in the
Environment (`.get` — a missing name and a stored `None` both read back
as `None` and raise the NameError), resolve the method by name
(`getattr` before the arguments are evaluated), evaluate the arguments
left to right, invoke, and — when the enclosing `current_statement` is
an assignment — store the result over its target at once.  The bare-call
printing of `display`/`splitBeans` is console output only.  Receivers
other than StringBeans instances are outside every claim's scope. -/
def executeMethodCall (fuel : ℕ) (objName methName : String) (args : List Ast)
    (st : St) : Except Err (Value × St) :=
  match fuel with
  | 0 => throw Err.fuel
  | f + 1 =>
    match (dictGet st.vars objName).getD Value.noneV with
    | Value.noneV => throw (Err.nameErr ("Name '" ++ objName ++ "' is not defined"))
    | Value.sbRef r =>
      if methName ∈ sbMethodNames then do
        let (vals, st₁) ← evalArgs f args st
        let (result, st₂) ← sbInvoke r methName vals st₁
        let st₃ :=
          match st₂.current with
          | some (.assign n _) => { st₂ with vars := dictSet st₂.vars n result }
          | _ => st₂
        pure (result, st₃)
      else throw (Err.attrErr ("'StringBeans' object has no attribute '" ++ methName ++ "'"))
    | _ => throw (Err.notModelled "method call on a receiver other than StringBeans")
termination_by structural fuel

/-- Left-to-right evaluation of an argument list. -/
def evalArgs (fuel : ℕ) (args : List Ast) (st : St) :
    Except Err (List Value × St) :=
  match fuel with
  | 0 => throw Err.fuel
  | f + 1 =>
    match args with
    | [] => pure ([], st)
    | a :: rest => do
      let (v, st₁) ← evaluateExpression f a st
      let (vs, st₂) ← evalArgs f rest st₁
      pure (v :: vs, st₂)
termination_by structural fuel

/-- `Interpreter.execute_function_call`: the three class names (dead
branches — the parser emits `CLASS_INST` for them), the float-producing
`squareRoot` (unmodelled), and `min`/`max`.  `args[0]`/`args[1]` on a
too-short list raises IndexError — for `min`/`max` only after the first
argument was already evaluated. -/
def executeFunctionCall (fuel : ℕ) (funcName : String) (args : List Ast) (st : St) :
    Except Err (Value × St) :=
  match fuel with
  | 0 => throw Err.fuel
  | f + 1 =>
    if funcName = "Shmuple" then do
      let (vals, st₁) ← evalArgs f args st
      pure (Value.shmRef st₁.shmHeap.length, { st₁ with shmHeap := st₁.shmHeap ++ [vals] })
    else if funcName = "Arrays" then
      match args with
      | [] => throw (Err.indexErr "list index out of range")
      | a :: _ => do
        let (v, st₁) ← evaluateExpression f a st
        arraysNew v st₁
    else if funcName = "StringBeans" then
      match args with
      | [] => throw (Err.indexErr "list index out of range")
      | a :: _ => do
        let (v, st₁) ← evaluateExpression f a st
        pure (Value.sbRef st₁.sbHeap.length, { st₁ with sbHeap := st₁.sbHeap ++ [v] })
    else if funcName = "squareRoot" then
      match args with
      | [] => throw (Err.indexErr "list index out of range")
      | a :: _ => do
        let (_, _) ← evaluateExpression f a st
        throw (Err.notModelled "math.sqrt produces a machine float")
    else if funcName = "min" then
      match args with
      | [] => throw (Err.indexErr "list index out of range")
      | a :: rest => do
        let (x, st₁) ← evaluateExpression f a st
        (match rest with
         | [] => throw (Err.indexErr "list index out of range")
         | b :: _ => do
           let (y, st₂) ← evaluateExpression f b st₁
           let res ← mfl.Min x y
           pure (res, st₂))
    else if funcName = "max" then
      match args with
      | [] => throw (Err.indexErr "list index out of range")
      | a :: rest => do
        let (x, st₁) ← evaluateExpression f a st
        (match rest with
         | [] => throw (Err.indexErr "list index out of range")
         | b :: _ => do
           let (y, st₂) ← evaluateExpression f b st₁
           let res ← mfl.Max x y
           pure (res, st₂))
    else throw (Err.nameErr ("Function '" ++ funcName ++ "' is not defined"))
termination_by structural fuel

/-- `Interpreter.execute_class_instantiation`: evaluate the arguments,
then construct.  Extra constructor arguments are a Python TypeError;
`Arrays()`/`StringBeans()` default their single parameter. -/
def executeClassInstantiation (fuel : ℕ) (className : String) (args : List Ast)
    (st : St) : Except Err (Value × St) :=
  match fuel with
  | 0 => throw Err.fuel
  | f + 1 => do
    let (vals, st₁) ← evalArgs f args st
    if className = "Shmuple" then
      pure (Value.shmRef st₁.shmHeap.length, { st₁ with shmHeap := st₁.shmHeap ++ [vals] })
    else if className = "Arrays" then
      (match vals with
       | [] => arraysNew (Value.int 0) st₁
       | [v] => arraysNew v st₁
       | _ => throw (Err.typeErr "Arrays() takes at most one argument"))
    else if className = "StringBeans" then
      (match vals with
       | [] => pure (Value.sbRef st₁.sbHeap.length,
                     { st₁ with sbHeap := st₁.sbHeap ++ [Value.str ""] })
       | [v] => pure (Value.sbRef st₁.sbHeap.length,
                      { st₁ with sbHeap := st₁.sbHeap ++ [v] })
       | _ => throw (Err.typeErr "StringBeans() takes at most one argument"))
    else throw (Err.nameErr ("Class '" ++ className ++ "' is not defined"))
termination_by structural fuel

/-- `Interpreter.evaluate_expression`.  A bare identifier defaults to
`0` when absent (`self.variables.get(expr[1], 0)`); a NUMBER node goes
through Python `int(...)`; a CHAR node is stripped of quotes; the
final fallback (`return expr` — the raw tuple as a value, reachable only
for a class instantiation nested inside a larger expression) is outside
every claim's scope. -/
def evaluateExpression (fuel : ℕ) (expr : Ast) (st : St) :
    Except Err (Value × St) :=
  match fuel with
  | 0 => throw Err.fuel
  | f + 1 =>
    match expr with
    | .call fn args => executeFunctionCall f fn args st
    | .methodCall obj meth args => executeMethodCall f obj meth args st
    | .binop op l r =>
      if op = "&&" ∨ op = "||" then do
        let (lv, st₁) ← evaluateExpression f l st
        let (rv, st₂) ← evaluateExpression f r st₁
        let res ← applyOperator st₂.mathDict op (.bool (toBool lv)) (.bool (toBool rv))
        pure (res, st₂)
      else if op ∈ ["+", "-", "*", "/", "==", "<", ">", "^", "!="] then do
        let (lv, st₁) ← evaluateExpression f l st
        let (rv, st₂) ← evaluateExpression f r st₁
        let res ← applyOperator st₂.mathDict op lv rv
        pure (res, st₂)
      else throw (Err.notModelled "evaluate_expression returns the raw AST tuple")
    | .ident name => pure ((dictGet st.vars name).getD (Value.int 0), st)
    | .number s =>
      (match pyInt? s with
       | some n => pure (Value.int n, st)
       | none => throw (Err.valueErr ("invalid literal for int() with base 10: " ++ s)))
    | .boolLit s => pure (Value.bool (s == "True"), st)
    | .charLit s => pure (Value.str (stripQuotes s), st)
    | _ => throw (Err.notModelled "evaluate_expression returns the raw AST tuple")
termination_by structural fuel

end

/-- The whole pipeline on one source text: tokenize, parse, interpret
into a fresh interpreter state, with interpreter fuel that is ample for
the concrete programs evaluated below. -/
def runProgram (src : String) : Except Err St := do
  let toks ← tokenize src
  let ast ← parseTokens toks
  interpret 16 ast initSt

/-! ### Auxiliary lemmas -/

/-- Splitting a successful `Except` bind. -/
theorem exceptBind_ok {α β : Type} {x : Except Err α} {g : α → Except Err β} {b : β}
    (h : x.bind g = Except.ok b) : ∃ a, x = Except.ok a ∧ g a = Except.ok b := by
  cases x with
  | error e => simp [Except.bind] at h
  | ok a => exact ⟨a, rfl, by simpa [Except.bind] using h⟩

/-- Bind on a success reduces. -/
theorem exceptOkBind {α β : Type} (a : α) (g : α → Except Err β) :
    (Except.ok a : Except Err α) >>= g = g a := rfl

/-- A key just set is present. -/
theorem dictGet_dictSet_self (d : List (String × Value)) (k : String) (v : Value) :
    dictGet (dictSet d k v) k = some v := by
  induction d with
  | nil => simp [dictSet, dictGet]
  | cons hd tl ih =>
    by_cases hk : hd.1 = k
    · simp [dictSet, dictGet, hk]
    · simp [dictSet, dictGet, hk, ih]

/-- Python `int(...)` rejects every text containing a decimal point. -/
theorem pyInt?_eq_none_of_dot {s : String} (h : '.' ∈ s.data) : pyInt? s = none := by
  have key : ∀ ds : List Char, '.' ∈ ds → ¬ (ds ≠ [] ∧ ds.all Char.isDigit) := by
    intro ds hds hc
    have := List.all_eq_true.mp hc.2 _ hds
    simp [Char.isDigit] at this
  unfold pyInt?
  rcases hcs : s.data with _ | ⟨c, rest⟩
  · simp [hcs] at h
  · rw [hcs] at h
    rcases List.mem_cons.mp h with hc | hc
    · subst hc
      simp only []
      rw [if_neg]
      exact key _ (by simp)
    · by_cases h1 : c = '-'
      · subst h1
        simp only []
        rw [if_neg]
        exact key _ hc
      · by_cases h2 : c = '+'
        · subst h2
          simp only []
          rw [if_neg]
          exact key _ hc
        · simp only []
          rw [if_neg]
          refine key _ ?_
          cases hrest : rest <;> simp_all

/-! ### Claims -/

set_option maxHeartbeats 1600000

/-- C2: interpreting `x=5~ y=3~ if(x>y){z=x+y~}else{z=x-y~}` leaves the
Environment with `z = 8` while `x = 5` and `y = 3` stay bound: the
condition picks the if-branch, `z` gets `5 + 3 = 8`, and the block-scope
cleanup spares `z` because the name occurs in the raw tuple of the
statement current at cleanup time (the assignment to `z` itself) — the
rule that deletes branch-local assignments otherwise. -/
theorem c2_if_else_literal_scenario :
    ∃ toks ast,
      tokenize "x=5~ y=3~ if(x>y){z=x+y~}else{z=x-y~}" = Except.ok toks ∧
      parseTokens toks = Except.ok ast ∧
      ((interpret 16 ast initSt).map fun st =>
        (dictGet st.vars "z", dictGet st.vars "x", dictGet st.vars "y")) =
      Except.ok (some (Value.int 8), some (Value.int 5), some (Value.int 3)) :=
  ⟨[("ID", "x"), ("ASSIGN", "="), ("NUMBER", "5"), ("END", "~"),
    ("ID", "y"), ("ASSIGN", "="), ("NUMBER", "3"), ("END", "~"),
    ("IF", "if"), ("OP", "("), ("ID", "x"), ("OP", ">"), ("ID", "y"),
    ("OP", ")"), ("OP", "\x7b"), ("ID", "z"), ("ASSIGN", "="), ("ID", "x"),
    ("OP", "+"), ("ID", "y"), ("END", "~"), ("OP", "\x7d"), ("ELSE", "else"),
    ("OP", "\x7b"), ("ID", "z"), ("ASSIGN", "="), ("ID", "x"), ("OP", "-"),
    ("ID", "y"), ("END", "~"), ("OP", "\x7d")],
   [.assign "x" (.number "5"), .assign "y" (.number "3"),
    .ifElse (.binop ">" (.ident "x") (.ident "y"))
      [.assign "z" (.binop "+" (.ident "x") (.ident "y"))]
      [.assign "z" (.binop "-" (.ident "x") (.ident "y"))]],
   by decide, by rfl, by decide⟩

/-- C3 counterexample: the negative-number rule does fire directly after
an identifier — `a-1~` lexes as `ID "a"`, `NUMBER "-1"`, `END`, not as
`ID`,`OP(-)`,`NUMBER`; and on the bare text `a-1` the lexer never
returns at all (the number scan at end of input steps the position
backwards and the main loop re-reads forever, exhausting any fuel). -/
theorem c3_counterexample :
    tokenize "a-1" ≠ Except.ok [("ID", "a"), ("OP", "-"), ("NUMBER", "1")] ∧
    tokenize "a-1" = Except.error Err.fuel ∧
    tokenize "a-1~" = Except.ok [("ID", "a"), ("NUMBER", "-1"), ("END", "~")] := by
  refine ⟨?_, by decide, by decide⟩
  decide

/-- C3 amended: a `-` immediately followed by a digit starts a negative
number regardless of what precedes it: with a terminator present,
`a-1~` produces the three tokens `ID "a"`, `NUMBER "-1"`, `END "~"`
(identifier, negative number, terminator), and `a*-1~` likewise gives
`NUMBER "-1"` after the operator. -/
theorem c3_amended :
    tokenize "a-1~" = Except.ok [("ID", "a"), ("NUMBER", "-1"), ("END", "~")] ∧
    tokenize "a*-1~" =
      Except.ok [("ID", "a"), ("OP", "*"), ("NUMBER", "-1"), ("END", "~")] := by
  constructor <;> decide

/-- C1: whenever `execute_assignment` completes, its final step
`self.math.assign(var_name, value)` has written the assigned name into
the math helper's internal dictionary, so immediately after any
assignment the helper's dictionary holds an entry for that name. -/
theorem c1_assignment_mirrors_into_helper_dict
    (fuel : ℕ) (name : String) (expr : Ast) (st st' : St)
    (h : executeAssignment fuel name expr st = Except.ok st') :
    ∃ v, dictGet st'.mathDict name = some v := by
  cases fuel with
  | zero => simp [executeAssignment] at h
  | succ f =>
    cases expr <;>
      (simp only [executeAssignment] at h
       obtain ⟨⟨value, st₁⟩, h₁, h⟩ := exceptBind_ok h
       obtain ⟨⟨stored, st₂⟩, h₂, h⟩ := exceptBind_ok h
       simp only [pure, Except.pure, Except.ok.injEq] at h
       exact ⟨value, by rw [← h]; simp [mfl.assign, dictGet_dictSet_self]⟩)

/-- C1 witness: the assignment `n = 1` into a fresh interpreter leaves
`n` in both the Environment and the helper's dictionary. -/
theorem c1_witness :
    executeAssignment 2 "n" (.number "1") initSt =
      Except.ok ⟨[("n", Value.int 1)], [("n", Value.int 1)], [], [], [], none⟩ ∧
    ∃ v, dictGet (St.mk [("n", Value.int 1)] [("n", Value.int 1)] [] [] [] none).mathDict "n"
      = some v :=
  ⟨by rfl,
   c1_assignment_mirrors_into_helper_dict 2 "n" (.number "1") initSt _ (by rfl)⟩

/-- C4: a StringBeans right-hand side is stored as a copy sharing no
mutable state.  First conjunct: the literal scenario — after
`a = StringBeans("x")~ b = a~ a.Conjoin("y")~` the cell behind `b`
still reads `"x"` while `a`'s cell was mutated to `"xy"`.  Second
conjunct: in general, assigning a variable that holds a StringBeans
reference stores a freshly allocated reference (the old heap length),
distinct from the source reference, while the helper's dictionary gets
the original reference. -/
theorem c4_stringbeans_copy_on_assignment :
    (∃ toks ast,
      tokenize "a = StringBeans(\"x\")~ b = a~ a.Conjoin(\"y\")~" = Except.ok toks ∧
      parseTokens toks = Except.ok ast ∧
      ((interpret 16 ast initSt).map fun st =>
        (dictGet st.vars "a", dictGet st.vars "b", st.sbHeap)) =
      Except.ok (some (Value.sbRef 1), some (Value.sbRef 2),
        [Value.str "x", Value.str "xy", Value.str "x"])) ∧
    (∀ (f : ℕ) (n m : String) (r : ℕ) (p : Value) (st : St),
      dictGet st.vars m = some (Value.sbRef r) →
      st.sbHeap[r]? = some p →
      executeAssignment (f + 1) n (.ident m) st =
        Except.ok { st with sbHeap := st.sbHeap ++ [p],
                            vars := dictSet st.vars n (Value.sbRef st.sbHeap.length),
                            mathDict := mfl.assign st.mathDict n (Value.sbRef r) } ∧
      r ≠ st.sbHeap.length) := by
  constructor
  · exact ⟨[("ID", "a"), ("ASSIGN", "="), ("Class", "StringBeans"), ("OP", "("),
      ("CHAR", "x\""), ("OP", ")"), ("END", "~"), ("ID", "b"), ("ASSIGN", "="),
      ("ID", "a"), ("END", "~"), ("ID", "a"), ("DOT", "."), ("ID", "Conjoin"),
      ("OP", "("), ("CHAR", "y\""), ("OP", ")"), ("END", "~")],
     [.assign "a" (.classInst "StringBeans" [.charLit "x\""]),
      .assign "b" (.ident "a"),
      .methodCall "a" "Conjoin" [.charLit "y\""]],
     by decide, by rfl, by decide⟩
  · intro f n m r p st h₁ h₂
    have hr : r < st.sbHeap.length := by
      by_contra hge
      rw [List.getElem?_eq_none (Nat.le_of_not_lt hge)] at h₂
      exact Option.noConfusion h₂
    constructor
    · simp only [executeAssignment]
      simp [h₁, h₂, sbGet, pure, Except.pure, exceptOkBind]
    · exact fun hEq => absurd hr (by rw [hEq]; exact lt_irrefl _)

/-- C4 witness: copying from a one-cell heap allocates cell 1 and leaves
the source reference 0 distinct from it. -/
theorem c4_witness :
    dictGet (St.mk [("m", Value.sbRef 0)] [] [Value.str "q"] [] [] none).vars "m"
      = some (Value.sbRef 0) ∧
    (St.mk [("m", Value.sbRef 0)] [] [Value.str "q"] [] [] none).sbHeap[0]?
      = some (Value.str "q") ∧
    (executeAssignment 1 "n" (.ident "m")
        (St.mk [("m", Value.sbRef 0)] [] [Value.str "q"] [] [] none) =
      Except.ok { St.mk [("m", Value.sbRef 0)] [] [Value.str "q"] [] [] none with
        sbHeap := [Value.str "q"] ++ [Value.str "q"],
        vars := dictSet [("m", Value.sbRef 0)] "n" (Value.sbRef 1),
        mathDict := mfl.assign [] "n" (Value.sbRef 0) } ∧
      (0 : ℕ) ≠ 1) :=
  ⟨by rfl, by rfl,
   c4_stringbeans_copy_on_assignment.2 0 "n" "m" 0 (Value.str "q")
     (St.mk [("m", Value.sbRef 0)] [] [Value.str "q"] [] [] none) (by rfl) (by rfl)⟩

/-- C5: in `execute_for`, an iteration that ends with a CONTINUE signal
still executes the increment assignment before the condition is
re-evaluated; an iteration that ends with a BREAK signal skips the
increment and exits the loop at once; and a BREAK statement at the head
of the body stops the iteration immediately, running none of the
remaining statements. -/
theorem c5_for_continue_break_increment (f : ℕ) (condE incr : Ast)
    (body : List Ast) (lv lv₂ : List String) (st st₁ st₂ : St) (cv : Value)
    (hc : evaluateExpression f condE st = Except.ok (cv, st₁))
    (ht : pyTruthy cv = true) :
    (runForBody f body lv st₁ = Except.ok (lv₂, Sig.cont, st₂) →
      forIterate (f + 1) condE incr body lv st =
        (do
          let (_, st₃) ← executeStatement f incr st₂
          forIterate f condE incr body lv₂ st₃)) ∧
    (runForBody f body lv st₁ = Except.ok (lv₂, Sig.brk, st₂) →
      forIterate (f + 1) condE incr body lv st = Except.ok (lv₂, st₂)) ∧
    (∀ rest, runForBody (f + 1) (Ast.brk :: rest) lv₂ st₂ =
      Except.ok (lv₂, Sig.brk, st₂)) := by
  refine ⟨fun hb => ?_, fun hb => ?_, fun rest => by rw [runForBody]; rfl⟩
  · rw [forIterate]
    simp [hc, ht, hb, exceptOkBind] <;> rfl
  · rw [forIterate]
    simp [hc, ht, hb, exceptOkBind] <;> rfl

/-- C5 witness: a one-statement body `continue` with condition `1` and
increment `i = 0`: the next loop state is the increment executed and the
loop re-entered. -/
theorem c5_witness :
    evaluateExpression 3 (.number "1") initSt = Except.ok (Value.int 1, initSt) ∧
    pyTruthy (Value.int 1) = true ∧
    runForBody 3 [Ast.cont] [] initSt = Except.ok ([], Sig.cont, initSt) ∧
    forIterate 4 (.number "1") (.assign "i" (.number "0")) [Ast.cont] [] initSt =
      (do
        let (_, st₃) ← executeStatement 3 (.assign "i" (.number "0")) initSt
        forIterate 3 (.number "1") (.assign "i" (.number "0")) [Ast.cont] [] st₃) :=
  ⟨by rfl, by rfl, by rfl,
   (c5_for_continue_break_increment 3 (.number "1") (.assign "i" (.number "0"))
     [Ast.cont] [] [] initSt initSt initSt (Value.int 1) (by rfl) (by rfl)).1 (by rfl)⟩

/-- C6: the parser's upper binary layer (`+ - < > == != && ||`) is one
left-associative chain with no precedence distinction inside it: for any
two of its operators and any identifiers, `a OP1 b OP2 c` parses to
`(OP2, (OP1, a, b), c)`. -/
theorem c6_single_layer_left_assoc (f : ℕ) (op1 op2 a b c : String)
    (h1 : op1 ∈ exprOps) (h2 : op2 ∈ exprOps) :
    parseExpression (f + 12)
      [("ID", a), ("OP", op1), ("ID", b), ("OP", op2), ("ID", c), ("END", "~")] 0 =
      Except.ok (.binop op2 (.binop op1 (.ident a) (.ident b)) (.ident c), 5) := by
  fin_cases h1 <;> fin_cases h2 <;> rfl

/-- C6 witness: `a == b && c` parses as `('&&', ('==', a, b), c)`. -/
theorem c6_witness :
    ("==" ∈ exprOps) ∧ ("&&" ∈ exprOps) ∧
    parseExpression 12
      [("ID", "a"), ("OP", "=="), ("ID", "b"), ("OP", "&&"), ("ID", "c"), ("END", "~")] 0 =
      Except.ok (.binop "&&" (.binop "==" (.ident "a") (.ident "b")) (.ident "c"), 5) :=
  ⟨by decide, by decide,
   c6_single_layer_left_assoc 0 "==" "&&" "a" "b" "c" (by decide) (by decide)⟩

/-- C7: `Equal` compares two ints directly; an int-then-string pair
raises the asymmetric TypeError ("the literal must come first"); a
string first operand is resolved through the helper's own dictionary —
and with two strings both are — so string equality compares the named
variables' current values, not the literal texts. -/
theorem c7_equal_asymmetric_dict_semantics (d : List (String × Value)) :
    (∀ m n : ℤ, mfl.Equal d (.int m) (.int n) = Except.ok (some (m == n))) ∧
    (∀ (m : ℤ) (s : String), mfl.Equal d (.int m) (.str s) =
      Except.error (Err.typeErr
        "action can't be between a number and a literal. the literal must come first")) ∧
    (∀ (s : String) (n : ℤ) (v : Value), dictGet d s = some v →
      mfl.Equal d (.str s) (.int n) = Except.ok (some (pyEq v (.int n)))) ∧
    (∀ (s t : String) (v w : Value), dictGet d s = some v → dictGet d t = some w →
      mfl.Equal d (.str s) (.str t) = Except.ok (some (pyEq v w))) := by
  refine ⟨fun m n => rfl, fun m s => rfl, fun s n v h => ?_, fun s t v w hs hth => ?_⟩
  · simp [mfl.Equal, h] <;> rfl
  · simp [mfl.Equal, hs, hth] <;> rfl

/-- C7 witness: with `x ↦ 7` in the helper's dictionary, `7 == 7` is
True, `7 == "x"` is the TypeError, and `"x" == 7` resolves `x` and
compares `7` with `7`. -/
theorem c7_witness :
    dictGet [("x", Value.int 7)] "x" = some (Value.int 7) ∧
    mfl.Equal [("x", Value.int 7)] (.str "x") (.int 7) =
      Except.ok (some (pyEq (Value.int 7) (.int 7))) :=
  ⟨by rfl,
   (c7_equal_asymmetric_dict_semantics [("x", Value.int 7)]).2.2.1 "x" 7
     (Value.int 7) (by rfl)⟩

/-- C8: a name with no Environment binding behaves asymmetrically —
evaluated as a standalone identifier statement it raises the
"is not defined" NameError, while evaluated as an identifier factor in
an expression it silently yields `0`. -/
theorem c8_undefined_name_asymmetry (f : ℕ) (name : String) (st : St)
    (h : dictGet st.vars name = none) :
    executeStatement (f + 1) (.ident name) st =
      Except.error (Err.nameErr ("Name '" ++ name ++ "' is not defined")) ∧
    evaluateExpression (f + 1) (.ident name) st = Except.ok (Value.int 0, st) := by
  constructor
  · rw [executeStatement]
    simp [h] <;> rfl
  · rw [evaluateExpression]
    simp [h] <;> rfl

/-- C8 witness: the undefined name `q` in a fresh interpreter. -/
theorem c8_witness :
    dictGet initSt.vars "q" = none ∧
    executeStatement 1 (.ident "q") initSt =
      Except.error (Err.nameErr ("Name '" ++ "q" ++ "' is not defined")) ∧
    evaluateExpression 1 (.ident "q") initSt = Except.ok (Value.int 0, initSt) :=
  ⟨by rfl,
   (c8_undefined_name_asymmetry 0 "q" initSt (by rfl)).1,
   (c8_undefined_name_asymmetry 0 "q" initSt (by rfl)).2⟩

/-- C9: the lexer accepts number tokens containing a decimal point
(`3.5~` lexes as one NUMBER token), but evaluating any NUMBER node whose
text contains `.` raises the uncaught `int()` ValueError, so no float
can ever come from a numeric literal. -/
theorem c9_decimal_literal_never_evaluates (f : ℕ) (s : String) (st : St)
    (h : '.' ∈ s.data) :
    evaluateExpression (f + 1) (.number s) st =
      Except.error (Err.valueErr ("invalid literal for int() with base 10: " ++ s)) ∧
    tokenize "3.5~" = Except.ok [("NUMBER", "3.5"), ("END", "~")] := by
  refine ⟨?_, by decide⟩
  rw [evaluateExpression]
  simp [pyInt?_eq_none_of_dot h] <;> rfl

/-- C9 witness: the NUMBER text `3.5`. -/
theorem c9_witness :
    ('.' ∈ "3.5".data) ∧
    evaluateExpression 1 (.number "3.5") initSt =
      Except.error (Err.valueErr ("invalid literal for int() with base 10: " ++ "3.5")) :=
  ⟨by decide,
   (c9_decimal_literal_never_evaluates 0 "3.5" initSt (by decide)).1⟩

/-- C10: on two bools, and likewise on two floats, all four `type(...)`
tests of `Equal` miss (Python `type(True)` and `type(5.0)` are not
`int`), so `Equal` returns `None` — never truthy — while `notEqual`,
which returns `not None`, is always `True` on the same operands. -/
theorem c10_equal_none_on_bool_float_pairs (d : List (String × Value)) :
    (∀ b₁ b₂ : Bool, mfl.Equal d (.bool b₁) (.bool b₂) = Except.ok none ∧
      mfl.notEqual d (.bool b₁) (.bool b₂) = Except.ok true) ∧
    (∀ q₁ q₂ : ℚ, mfl.Equal d (.float q₁) (.float q₂) = Except.ok none ∧
      mfl.notEqual d (.float q₁) (.float q₂) = Except.ok true) :=
  ⟨fun b₁ b₂ => ⟨rfl, rfl⟩, fun q₁ q₂ => ⟨rfl, rfl⟩⟩

/-- C10 witness: `True == True` is `None`-valued and `True != True` is
`True`. -/
theorem c10_witness :
    mfl.Equal [] (.bool true) (.bool true) = Except.ok none ∧
    mfl.notEqual [] (.bool true) (.bool true) = Except.ok true :=
  (c10_equal_none_on_bool_float_pairs []).1 true true

end Muffasa
